import Mathlib

/-!
Verification of the FM transmitter monitoring core (fmtxm).

This file gives a shallow embedding, in Lean 4, of the parts of the
TypeScript source that the verified properties speak about:

* the poll-time OID expansion and result ring of the SNMP poller
  (`SNMPPoller` in `snmp-poller.ts`),
* the gating check `shouldPollDevice`,
* the metric parser `parseSnmpData` and the metric-store path
  `storeTransmitterMetrics` of `DatabaseService`,
* the contact-info normalization `normalizeSite`,
* the trap handling `handleNotification` of `SNMPTrapManager`,
* the trap query `getLatestTraps`.

Modelling conventions:

* JavaScript strings are modelled as `List Char` (named `Str`); all the
  string operations the source uses (`split('.')`, `endsWith`,
  `startsWith`, `trim`, `slice`, `substring`, `lastIndexOf`) are defined
  below on `List Char` with their JavaScript semantics.
* JavaScript objects used as OID → value maps are modelled as
  association lists in key-insertion order (`Object.entries` order for
  the dotted string keys the poller produces); lookup is first match.
* SNMP varbind values (number | string | byte buffer) are a tagged
  variant `JSVal`; numeric values are `ℚ` (the raw values are protocol
  integers, so exact arithmetic is faithful), except for the VSWR
  derivation where the IEEE-754 behaviour of `Math.sqrt` and division
  by zero matters and is modelled by `JSFloat` over `ℝ` with explicit
  infinity and NaN tags.
* Fallible storage calls are modelled as `Except Unit` values.
-/

namespace Fmtxm

/-- JavaScript strings, modelled as lists of characters. -/
abbrev Str := List Char

/-- Coerce a Lean string literal to the `Str` model. -/
def S (s : String) : Str := s.data

/-! ### String primitives used by the source -/

/-- `s.split('.')`: split a string at every `'.'`, keeping empty segments.
The result is always nonempty. -/
def splitDot : Str → List Str
  | [] => [[]]
  | c :: rest =>
    match splitDot rest with
    | [] => [[]]
    | seg :: segs => if c = '.' then [] :: seg :: segs else (c :: seg) :: segs

/-- `parts.join('.')`: interleave `'.'` between segments. -/
def joinDot : List Str → Str
  | [] => []
  | [seg] => seg
  | seg :: rest => seg ++ '.' :: joinDot rest

/-- The regex `/^\d+$/`: a nonempty all-digit string. -/
def isDigits (s : Str) : Bool := !s.isEmpty && s.all Char.isDigit

/-- `String.prototype.trim()`: drop leading and trailing whitespace. -/
def trimStr (s : Str) : Str :=
  ((s.dropWhile Char.isWhitespace).reverse.dropWhile Char.isWhitespace).reverse

/-- The literal `".0"`. -/
def dot0 : Str := ['.', '0']

/-!
### OID expansion of the poller (`pollDevice` in `snmp-poller.ts`)

```js
const stripInstance = (oid) => {
  const parts = oid.split('.');
  const last = parts[parts.length - 1];
  if (/^\d+$/.test(last)) { return parts.slice(0, -1).join('.'); }
  return oid;
};
```
-/

/-- Strip one trailing numeric component (`stripInstance` in the source). -/
def stripInstance (oid : Str) : Str :=
  let parts := splitDot oid
  match parts.getLast? with
  | some last => if isDigits last then joinDot parts.dropLast else oid
  | none => oid

/-- The Elenos ETG prefix tested by
`stripInstance(o).startsWith('1.3.6.1.4.1.31946.4.2.6.10.')`. -/
def elenosPre : Str := S "1.3.6.1.4.1.31946.4.2.6.10."

/-- The five exact bases matched by the regex
`/^1\.3\.6\.1\.4\.1\.31946\.4\.2\.6\.10\.(1|2|12|13|14)$/`. -/
def elenosIdxBases : List Str :=
  [ S "1.3.6.1.4.1.31946.4.2.6.10.1"
  , S "1.3.6.1.4.1.31946.4.2.6.10.2"
  , S "1.3.6.1.4.1.31946.4.2.6.10.12"
  , S "1.3.6.1.4.1.31946.4.2.6.10.13"
  , S "1.3.6.1.4.1.31946.4.2.6.10.14" ]

/-- The four "core" bases force-added when any Elenos base OID is present. -/
def coreBases : List Str :=
  [ S "1.3.6.1.4.1.31946.4.2.6.10.1"
  , S "1.3.6.1.4.1.31946.4.2.6.10.2"
  , S "1.3.6.1.4.1.31946.4.2.6.10.12"
  , S "1.3.6.1.4.1.31946.4.2.6.10.14" ]

/-- Normalization step: `oids.map(o => o.trim()).filter(o => !!o)`. -/
def normalizeOids (oids : List Str) : List Str :=
  (oids.map trimStr).filter (fun o => !o.isEmpty)

/-- The instance indices `.1`–`.4` appended for Elenos metric bases. -/
def idxSuffixes : List Str := [S ".1", S ".2", S ".3", S ".4"]

/-- Per-OID additions of the first expansion loop: the OID itself, the
`.0` form of its instance-stripped base when the OID does not already end
in `.0`, and the `.1`–`.4` indexed forms when the base is one of the five
Elenos metric bases. -/
def expandOne (oid : Str) : List Str :=
  let base := stripInstance oid
  [oid]
    ++ (if dot0.isSuffixOf oid then [] else [base ++ dot0])
    ++ (if elenosIdxBases.contains base then idxSuffixes.map (fun s => base ++ s) else [])

/-- `hasAnyElenos`: some normalized OID has an Elenos-prefixed stripped base. -/
def hasAnyElenos (normalized : List Str) : Bool :=
  normalized.any (fun o => elenosPre.isPrefixOf (stripInstance o))

/-- The force-added forms of one core base: the base, its `.0` form and
its `.1`–`.4` indexed forms. -/
def coreForms (base : Str) : List Str :=
  [base, base ++ dot0] ++ idxSuffixes.map (fun s => base ++ s)

/-- The complete poll-time OID expansion of `pollDevice`, as the list of
all strings added to `expandedSet` (the JavaScript `Set` only
de-duplicates, so membership in this list is membership in the set). -/
def expandOids (oids : List Str) : List Str :=
  let normalized := normalizeOids oids
  normalized.flatMap expandOne
    ++ (if hasAnyElenos normalized then coreBases.flatMap coreForms else [])

example : splitDot (S "1.2.3") = [S "1", S "2", S "3"] := by decide
example : stripInstance (S "1.3.6.1.4.1.31946.4.2.6.10.1")
    = S "1.3.6.1.4.1.31946.4.2.6.10" := by decide
example : expandOids [S "1.3.6.1.4.1.31946.4.2.6.10.1"]
    = [S "1.3.6.1.4.1.31946.4.2.6.10.1", S "1.3.6.1.4.1.31946.4.2.6.10.0"] := by decide

/-!
### Raw SNMP values and poll results

`DeviceResult` is produced by the poller (`snmp-poller.ts`); its `data`
field is a plain object mapping OID strings to varbind values.
-/

/-- A raw SNMP varbind value: number, string, or byte buffer. -/
inductive JSVal where
  | num (q : ℚ)
  | str (s : Str)
  | buf (b : List ℕ)
deriving DecidableEq

/-- An OID → value map, in key-insertion order. -/
abbrev SnmpData := List (Str × JSVal)

/-- One poll result (`DeviceResult` in `snmp-poller.ts`); timestamps are
abstracted to naturals. -/
structure DeviceResult where
  deviceId : String
  timestamp : ℕ
  success : Bool
  data : Option SnmpData
  error : Option String
deriving DecidableEq

/-!
### The metric parser (`parseSnmpData` in `database-service.ts`)
-/

/-- The metric fields a raw OID can resolve to. -/
inductive MetricName where
  | forwardPower
  | reflectedPower
  | frequency
  | powerOutput
deriving DecidableEq

/-- `directOidMappings`: exact OIDs kept with their scalar index. -/
def directOidMappings (oid : Str) : Option MetricName :=
  if oid = S "1.3.6.1.2.1.1.3.0" then some .powerOutput else none

/-- `oidBaseMappings`: the Elenos ETG base OIDs. -/
def oidBaseMappings (oid : Str) : Option MetricName :=
  if oid = S "1.3.6.1.4.1.31946.4.2.6.10.1" then some .forwardPower
  else if oid = S "1.3.6.1.4.1.31946.4.2.6.10.2" then some .reflectedPower
  else if oid = S "1.3.6.1.4.1.31946.4.2.6.10.14" then some .frequency
  else none

/-- `s.lastIndexOf('.')` followed by `s.substring(0, i)`: everything
before the last `'.'`, or `none` when the string has no dot. -/
def beforeLastDot (s : Str) : Option Str :=
  if s.contains '.' then
    some (((s.reverse.dropWhile (fun c => c ≠ '.')).drop 1).reverse)
  else none

/-- `resolveMetricName`: try the OID as-is against the direct map, then
the base map, then with a trailing `.0` stripped, then with one trailing
instance index stripped, then with both stripped. First hit wins. -/
def resolveMetricName (oid : Str) : Option MetricName :=
  match directOidMappings oid with
  | some n => some n
  | none =>
  match oidBaseMappings oid with
  | some n => some n
  | none =>
  let withoutZero := if dot0.isSuffixOf oid then oid.take (oid.length - 2) else oid
  match oidBaseMappings withoutZero with
  | some n => some n
  | none =>
  match (beforeLastDot withoutZero).bind oidBaseMappings with
  | some n => some n
  | none =>
  if dot0.isSuffixOf oid then
    (beforeLastDot (oid.take (oid.length - 2))).bind oidBaseMappings
  else none

/-- The regex `/^\d+(\.0)?$/` applied to the part of a key after the
status base: a numeric instance index, optionally followed by `.0`. -/
def instSuffixOk (rest : Str) : Bool :=
  isDigits rest || (dot0.isSuffixOf rest && isDigits (rest.take (rest.length - 2)))

/-- Whether an entry is a numeric value filed under `base.<n>` or
`base.<n>.0` (the loop body of `getNumericValueForBase`). -/
def numEntryForBase (base : Str) (p : Str × JSVal) : Bool :=
  (match p.2 with | .num _ => true | _ => false)
    && (base ++ ['.']).isPrefixOf p.1
    && instSuffixOk (p.1.drop (base.length + 1))

/-- Extract the numeric payload of a value. -/
def asNum : Option JSVal → Option ℚ
  | some (.num q) => some q
  | _ => none

/-- `getNumericValueForBase`: look for a numeric value under the base
OID directly, then its scalar `.0` form, then any indexed form. -/
def getNumericValueForBase (d : SnmpData) (base : Str) : Option ℚ :=
  match asNum (d.lookup base) with
  | some q => some q
  | none =>
  match asNum (d.lookup (base ++ dot0)) with
  | some q => some q
  | none =>
  match d.find? (numEntryForBase base) with
  | some p => asNum (some p.2)
  | none => none

/-- Standby-status base OID (priority 1). -/
def statusBase13 : Str := S "1.3.6.1.4.1.31946.4.2.6.10.13"

/-- On-air-status base OID (priority 2). -/
def statusBase12 : Str := S "1.3.6.1.4.1.31946.4.2.6.10.12"

/-- The status field produced by `parseSnmpData`: `10.13` first
(`1` → active, otherwise standby), else `10.12` (`2` → active,
otherwise standby), and the offline override when both bases yield no
numeric value. -/
def statusField (d : SnmpData) : Option String :=
  let v13 := getNumericValueForBase d statusBase13
  let v12 := getNumericValueForBase d statusBase12
  let st : Option String :=
    match v13 with
    | some q => some (if q = 1 then "active" else "standby")
    | none =>
      match v12 with
      | some q => some (if q = 2 then "active" else "standby")
      | none => none
  if v13.isNone && v12.isNone then some "offline" else st

/-- The mutable `metrics` record built by `parseSnmpData`, without the
derived VSWR (which needs floating-point semantics, see below).
`temperature` is declared in `TransmitterMetricData` but never assigned
by the parser. -/
structure Metrics where
  powerOutput : Option ℚ := none
  frequency : Option ℚ := none
  temperature : Option ℚ := none
  forwardPower : Option ℚ := none
  reflectedPower : Option ℚ := none
  status : Option String := none
deriving DecidableEq

/-- Assign one resolved metric field (`(metrics as any)[metricName] = value`,
with the `/100` scaling for `frequency`). -/
def setMetric (m : Metrics) (name : MetricName) (q : ℚ) : Metrics :=
  match name with
  | .forwardPower => { m with forwardPower := some q }
  | .reflectedPower => { m with reflectedPower := some q }
  | .frequency => { m with frequency := some (q / 100) }
  | .powerOutput => { m with powerOutput := some q }

/-- The body of the OID-mapping loop: non-numeric values and unknown
OIDs are ignored; later entries overwrite earlier ones. -/
def applyEntry (m : Metrics) (p : Str × JSVal) : Metrics :=
  match resolveMetricName p.1 with
  | none => m
  | some name =>
    match p.2 with
    | .num q => setMetric m name q
    | _ => m

/-- The computable part of `parseSnmpData`: empty record on failed or
data-less results, otherwise status derivation followed by the
OID-mapping loop. -/
def parseFields (success : Bool) (data : Option SnmpData) : Metrics :=
  match success, data with
  | true, some d => d.foldl applyEntry { status := statusField d }
  | _, _ => {}

/-!
### VSWR derivation

```js
if (metrics.forwardPower && metrics.reflectedPower && !metrics.vswr) {
  const reflectionCoeff = Math.sqrt(metrics.reflectedPower / metrics.forwardPower);
  metrics.vswr = (1 + reflectionCoeff) / (1 - reflectionCoeff);
}
```

The computation runs on IEEE-754 doubles. It is modelled by exact real
arithmetic extended with infinity and NaN tags: `Math.sqrt` of a
negative number is NaN, and the division `(1+Γ)/(1-Γ)` with `Γ = 1`
is `2 / +0 = +Infinity`. This captures exactly the special values the
source can produce here (for `Γ = 1` the IEEE computation is exact,
so the idealization agrees with the double-precision result).
-/

/-- A JavaScript number: finite, an infinity, or NaN. -/
inductive JSFloat where
  | fin (x : ℝ)
  | posInf
  | negInf
  | nan

open scoped Classical in
/-- `Math.sqrt`. -/
noncomputable def jsSqrt (x : ℝ) : JSFloat :=
  if x < 0 then .nan else .fin (Real.sqrt x)

open scoped Classical in
/-- `(1 + Math.sqrt(r / f)) / (1 - Math.sqrt(r / f))` for `f ≠ 0`. -/
noncomputable def vswrCalc (f r : ℚ) : JSFloat :=
  match jsSqrt ((r : ℝ) / (f : ℝ)) with
  | .fin c => if c = 1 then .posInf else .fin ((1 + c) / (1 - c))
  | _ => .nan

/-- The `vswr` field produced by `parseSnmpData`: the truthiness guard
`metrics.forwardPower && metrics.reflectedPower && !metrics.vswr`
(a JavaScript number is falsy exactly when it is `0`, and `metrics.vswr`
is never assigned before this point), then the computation above. -/
noncomputable def parseVswr (success : Bool) (data : Option SnmpData) : Option JSFloat :=
  let m := parseFields success data
  match m.forwardPower, m.reflectedPower with
  | some f, some r => if f ≠ 0 ∧ r ≠ 0 then some (vswrCalc f r) else none
  | _, _ => none

/-!
### The metric-store path (`storeTransmitterMetrics` in `database-service.ts`)

The method first checks that the transmitter row exists (otherwise it
returns without inserting), parses the result, optionally updates the
transmitter name (which does not affect the inserted row), and inserts
one `transmitter_metrics` row. The inserted row is modelled as the
return value; `none` models the no-insert path.
-/

/-- The `transmitter_metrics` row inserted by `storeTransmitterMetrics`. -/
structure MetricRow where
  transmitterId : String
  timestamp : ℕ
  powerOutput : Option ℚ
  frequency : Option ℚ
  vswr : Option JSFloat
  temperature : Option ℚ
  forwardPower : Option ℚ
  reflectedPower : Option ℚ
  status : String
  snmpData : Option SnmpData
  errorMessage : Option String

/-- `storeTransmitterMetrics`: the row appended for a poll result, or
`none` when the transmitter does not exist. `status` is
`metrics.status ?? 'offline'`. -/
noncomputable def storeTransmitterMetrics (txExists : Bool) (deviceId : String)
    (r : DeviceResult) : Option MetricRow :=
  if txExists then
    let m := parseFields r.success r.data
    some
      { transmitterId := deviceId
      , timestamp := r.timestamp
      , powerOutput := m.powerOutput
      , frequency := m.frequency
      , vswr := parseVswr r.success r.data
      , temperature := m.temperature
      , forwardPower := m.forwardPower
      , reflectedPower := m.reflectedPower
      , status := m.status.getD "offline"
      , snmpData := r.data
      , errorMessage := r.error }
  else none

example :
    statusField [(S "1.3.6.1.4.1.31946.4.2.6.10.13.0", .num 1)] = some "active" := by
  decide
example :
    statusField [(S "1.3.6.1.4.1.31946.4.2.6.10.12.4", .num 2)] = some "active" := by
  decide
example : statusField [(S "1.3.6.1.4.1.31946.4.2.6.10.1.0", .num 500)] = some "offline" := by
  decide
/-!
### The bounded result ring (`recordResult` / `getResults` in `snmp-poller.ts`)
-/

/-- `maxResults` of the poller. -/
def maxResults : ℕ := 1000

/-- `recordResult`: push the result, then
`if (this.results.length > this.maxResults) this.results = this.results.slice(-this.maxResults)`
(`slice(-n)` keeps the last `n` elements, i.e. drops all but the last
`n`). -/
def recordResult (results : List DeviceResult) (r : DeviceResult) : List DeviceResult :=
  if (results ++ [r]).length > maxResults then
    (results ++ [r]).drop ((results ++ [r]).length - maxResults)
  else results ++ [r]

/-- Stable insertion of `x` behind every already-placed element that may
come before it (`le y x` reads "y may precede x"). -/
def insertSorted (le : α → α → Bool) (x : α) : List α → List α
  | [] => [x]
  | y :: ys => if le y x then y :: insertSorted le x ys else x :: y :: ys

/-- A stable sort with respect to the comparator `le`; models the
(stable, ECMAScript 2019) `Array.prototype.sort`. -/
def sortBy (le : α → α → Bool) (l : List α) : List α :=
  l.foldl (fun acc x => insertSorted le x acc) []

/-- `b.timestamp - a.timestamp`-style comparator: the sort is descending
by timestamp. -/
def newerFirst (a b : DeviceResult) : Bool := b.timestamp ≤ a.timestamp

/-- `getResults`: optional device filter, sort newest-first, then
`slice(0, limit)`. -/
def getResults (results : List DeviceResult) (deviceId : Option String) (limit : ℕ) :
    List DeviceResult :=
  let filtered :=
    match deviceId with
    | some id => results.filter (fun (r : DeviceResult) => r.deviceId == id)
    | none => results
  (sortBy newerFirst filtered).take limit

/-!
### The gating check (`shouldPollDevice` in `snmp-poller.ts`)

The storage lookups run inside one `try`; any storage error lands in the
`catch`, which falls through to `return true`. The early `return false`
branches are plain returns, not exceptions.
-/

/-- The in-memory device (only the fields gating consults). -/
structure PollDevice where
  id : String
  isActive : Bool

/-- The transmitter row fields gating consults; nullable columns are
`Option`. -/
structure GateTx where
  id : String
  isActive : Option Bool
  siteId : Option String

/-- The site row fields gating consults. -/
structure GateSite where
  id : String
  isActive : Option Bool

/-- The persistence store as seen by the gating check; `Except.error`
models a thrown storage error. -/
structure GateStore where
  getTransmitterById : String → Except Unit (Option GateTx)
  getSiteById : String → Except Unit (Option GateSite)

/-- `shouldPollDevice`: device flag first; then the stored transmitter
flag (strict `=== false`), then the owning site's flag when the
transmitter links to a site; a storage error anywhere in the `try`
defaults to allowing the poll. -/
def shouldPollDevice (dev : PollDevice) (store : GateStore) : Bool :=
  if !dev.isActive then false
  else
    match store.getTransmitterById dev.id with
    | .error _ => true
    | .ok none => true
    | .ok (some tx) =>
      if tx.isActive = some false then false
      else
        match tx.siteId with
        | none => true
        | some sid =>
          match store.getSiteById sid with
          | .error _ => true
          | .ok none => true
          | .ok (some site) => if site.isActive = some false then false else true

/-!
### Trap handling (`handleNotification` in `snmp-trap-manager.ts`)
-/

/-- A raw varbind as delivered by the receiver (`type` is the numeric
protocol object type). -/
structure RawVarbind where
  oid : Str
  vtype : Option ℕ
  value : JSVal
deriving DecidableEq

/-- A normalized varbind (`type` resolved to a readable name). -/
structure NormVarbind where
  oid : Str
  vtype : Option String
  value : JSVal
deriving DecidableEq

/-- `normalizeVarbinds`, parameterized by the net-snmp `ObjectType`
name table (library data, not repository code). -/
def normalizeVarbinds (typeName : ℕ → Option String) (vbs : List RawVarbind) :
    List NormVarbind :=
  vbs.map (fun vb => ⟨vb.oid, vb.vtype.bind typeName, vb.value⟩)

/-- String payload of a varbind value, if any. -/
def strValue : JSVal → Option Str
  | .str s => some s
  | _ => none

/-- `extractTrapOids`: the v2c trap OID and the v1 enterprise OID,
kept only when their values are strings. -/
def extractTrapOids (vbs : List NormVarbind) : Option Str × Option Str :=
  let t := vbs.find? (fun vb => vb.oid == S "1.3.6.1.6.3.1.1.4.1.0")
  let e := vbs.find? (fun vb => vb.oid == S "1.3.6.1.4.1.0")
  ((t.map NormVarbind.value).bind strValue, (e.map NormVarbind.value).bind strValue)

/-- JavaScript `a || b` on optional strings: the empty string is falsy. -/
def strOr (a b : Option String) : Option String :=
  match a with
  | some s => if s = "" then b else some s
  | none => b

/-- Protocol version of an incoming notification as compared against
the net-snmp constants. -/
inductive NotifVersion where
  | v1
  | v2c
  | other
deriving DecidableEq

/-- The fields of the receiver callback's `data` that
`handleNotification` reads. -/
structure TrapNotification where
  rinfoAddress : Option String
  rinfoHost : Option String
  rinfoPort : Option ℤ
  dataPort : Option ℤ
  community : Option String
  version : NotifVersion
  varbinds : List RawVarbind
deriving DecidableEq

/-- The transmitter fields trap attribution consults. -/
structure Tx where
  id : String
  siteId : Option String
  snmpHost : String
deriving DecidableEq

/-- The `snmp_traps` row handed to `storeSnmpTrap`. -/
structure TrapRow where
  transmitterId : Option String
  siteId : Option String
  sourceHost : String
  sourcePort : ℤ
  community : Option String
  version : ℕ
  trapOid : Option Str
  enterpriseOid : Option Str
  varbinds : List NormVarbind
deriving DecidableEq

/-- `rinfo?.address || rinfo?.host || 'unknown'`. -/
def sourceHostOf (n : TrapNotification) : String :=
  (strOr n.rinfoAddress n.rinfoHost).getD "unknown"

/-- `handleNotification`: normalize varbinds, extract trap OIDs, read
the sender tuple, map the version, attribute by source host
(`allTx.find(tx => tx.snmpHost === sourceHost)`, inside a `try` whose
`catch` is non-fatal), and build the row that is always stored.
`txStore` models `databaseService.getAllTransmitters()`. -/
def handleNotification (typeName : ℕ → Option String)
    (txStore : Except Unit (List Tx)) (n : TrapNotification) (boundPort : ℤ) : TrapRow :=
  let varbinds := normalizeVarbinds typeName n.varbinds
  let oids := extractTrapOids varbinds
  let sourceHost := sourceHostOf n
  let sourcePort :=
    match n.rinfoPort with
    | some p => p
    | none => match n.dataPort with | some p => p | none => boundPort
  let versionNum : ℕ := match n.version with | .v1 => 0 | _ => 1
  let matched :=
    match txStore with
    | .ok txs => txs.find? (fun (tx : Tx) => tx.snmpHost == sourceHost)
    | .error _ => none
  { transmitterId := matched.map Tx.id
  , siteId := matched.bind Tx.siteId
  , sourceHost := sourceHost
  , sourcePort := sourcePort
  , community := n.community
  , version := versionNum
  , trapOid := oids.1
  , enterpriseOid := oids.2
  , varbinds := varbinds }

/-!
### Contact-info normalization (`normalizeSite` in `database-service.ts`)

`JSON.parse` is a platform builtin; the normalization is parameterized
by it (`parse s = none` models a parse exception).
-/

/-- A JSON value as produced by `JSON.parse`, plus the string/object
distinction `normalizeSite` dispatches on. -/
inductive JsonVal where
  | jnull
  | jbool (b : Bool)
  | jnum (q : ℚ)
  | jstr (s : String)
  | jarr (elems : List JsonVal)
  | jobj (fields : List (String × JsonVal))

/-- JavaScript truthiness of a JSON value. -/
def jsTruthy : JsonVal → Bool
  | .jnull => false
  | .jbool b => b
  | .jnum q => q ≠ 0
  | .jstr s => s ≠ ""
  | .jarr _ => true
  | .jobj _ => true

/-- `typeof v === 'object'` for a JSON value (`null` and arrays
included). -/
def jsTypeofObject : JsonVal → Bool
  | .jnull => true
  | .jarr _ => true
  | .jobj _ => true
  | _ => false

/-- The synthesized legacy record
`{ technician: '', phone: '', email: <string> }`. -/
def synthContact (s : String) : JsonVal :=
  .jobj [("technician", .jstr ""), ("phone", .jstr ""), ("email", .jstr s)]

/-- `trim` on the `String` wrapper. -/
def trimS (s : String) : String := ⟨trimStr s.data⟩

/-- `normalizeSite`'s treatment of the `contactInfo` column: falsy
values become `null`; a (truthy) string is trimmed and parsed, a parsed
truthy object replaces it and anything else synthesizes the legacy
record from the original string; non-string truthy values pass through. -/
def normalizeContact (parse : String → Option JsonVal) (contact : Option JsonVal) :
    Option JsonVal :=
  match contact with
  | none => none
  | some c =>
    if jsTruthy c then
      match c with
      | .jstr s =>
        match parse (trimS s) with
        | some parsed =>
          if jsTruthy parsed && jsTypeofObject parsed then some parsed
          else some (synthContact s)
        | none => some (synthContact s)
      | c2 => some c2
    else none

/-!
### The latest-traps query (`getLatestTraps` in `database-service.ts`)

The SQL `SELECT … ORDER BY created_at DESC LIMIT n` is modelled by a
stable descending sort followed by `take`; the in-memory `filter` then
runs on those rows only.
-/

/-- An `snmp_traps` row as seen by the query. -/
structure TrapRecord where
  transmitterId : Option String
  siteId : Option String
  sourceHost : String
  createdAt : ℕ
deriving DecidableEq

/-- The optional query parameters. -/
structure TrapQuery where
  limit : Option ℤ
  transmitterId : Option String
  siteId : Option String
  sourceHost : Option String
deriving DecidableEq

/-- `params.limit && params.limit > 0 ? params.limit : 100`
(a missing or non-positive limit falls back to 100). -/
def effLimit (l : Option ℤ) : ℕ :=
  match l with
  | some v => if v > 0 then v.toNat else 100
  | none => 100

/-- Descending `created_at` comparator. -/
def trapNewerFirst (a b : TrapRecord) : Bool := b.createdAt ≤ a.createdAt

/-- The post-query filter of `getLatestTraps`: each provided filter must
match exactly (`r.x === params.x`; an absent row value never equals a
provided filter). -/
def trapMatches (q : TrapQuery) (r : TrapRecord) : Bool :=
  (match q.transmitterId with | some v => r.transmitterId == some v | none => true)
    && (match q.siteId with | some v => r.siteId == some v | none => true)
    && (match q.sourceHost with | some v => r.sourceHost == v | none => true)

/-- `getLatestTraps`: newest `limit` rows first, filters applied
afterwards in memory. -/
def getLatestTraps (table : List TrapRecord) (q : TrapQuery) : List TrapRecord :=
  let rows := (sortBy trapNewerFirst table).take (effLimit q.limit)
  rows.filter (trapMatches q)

/-!
## Theorems

### C1 — status derivation priority
-/

/-- **C1.** For every raw OID-value map from a successful poll, the
derived status is computed by first searching base
`1.3.6.1.4.1.31946.4.2.6.10.13` (direct, scalar `.0`, or indexed) for a
numeric value, mapping `1` to `active` and `2` to `standby`; only when
that base yields no numeric value is base `1.3.6.1.4.1.31946.4.2.6.10.12`
consulted, mapping `2` to `active` and any other numeric value to
`standby`; and when neither base yields a numeric value the status is
`offline`. -/
theorem status_derivation_priority (d : SnmpData) :
    (getNumericValueForBase d statusBase13 = some 1 → statusField d = some "active") ∧
    (getNumericValueForBase d statusBase13 = some 2 → statusField d = some "standby") ∧
    (getNumericValueForBase d statusBase13 = none →
      getNumericValueForBase d statusBase12 = some 2 → statusField d = some "active") ∧
    (getNumericValueForBase d statusBase13 = none →
      ∀ q : ℚ, getNumericValueForBase d statusBase12 = some q → q ≠ 2 →
        statusField d = some "standby") ∧
    (getNumericValueForBase d statusBase13 = none →
      getNumericValueForBase d statusBase12 = none → statusField d = some "offline") := by
  refine ⟨?_, ?_, ?_, ?_, ?_⟩
  · intro h13
    simp [statusField, h13]
  · intro h13
    norm_num [statusField, h13]
  · intro h13 h12
    simp [statusField, h13, h12]
  · intro h13 q h12 hq
    simp [statusField, h13, h12, hq]
  · intro h13 h12
    simp [statusField, h13, h12]

/-- Witness for C1 at the scalar map `{…10.13.0 ↦ 1}`. -/
theorem status_derivation_priority_witness :
    getNumericValueForBase [(S "1.3.6.1.4.1.31946.4.2.6.10.13.0", JSVal.num 1)]
        statusBase13 = some 1 ∧
    statusField [(S "1.3.6.1.4.1.31946.4.2.6.10.13.0", JSVal.num 1)] = some "active" :=
  ⟨by decide, (status_derivation_priority _).1 (by decide)⟩

/-!
### C6 — gating on activity flags, storage faults allow
-/

/-- **C6.** The pre-GET gating check skips whenever the stored
transmitter's `is_active` flag is `false` or the owning site's
`is_active` flag is `false`; and whenever the gating storage lookup
itself throws, it allows (returns `true`) rather than blocking. -/
theorem gating_check (dev : PollDevice) (store : GateStore) (tx : GateTx) :
    (store.getTransmitterById dev.id = .ok (some tx) → tx.isActive = some false →
      shouldPollDevice dev store = false) ∧
    (∀ sid site, store.getTransmitterById dev.id = .ok (some tx) → tx.siteId = some sid →
      store.getSiteById sid = .ok (some site) → site.isActive = some false →
      shouldPollDevice dev store = false) ∧
    (dev.isActive = true → store.getTransmitterById dev.id = .error () →
      shouldPollDevice dev store = true) ∧
    (dev.isActive = true → store.getTransmitterById dev.id = .ok (some tx) →
      tx.isActive ≠ some false → ∀ sid, tx.siteId = some sid →
      store.getSiteById sid = .error () → shouldPollDevice dev store = true) := by
  refine ⟨?_, ?_, ?_, ?_⟩
  · intro htx hta
    cases hA : dev.isActive with
    | false => simp [shouldPollDevice, hA]
    | true => simp [shouldPollDevice, hA, htx, hta]
  · intro sid site htx hsid hsite hsa
    cases hA : dev.isActive with
    | false => simp [shouldPollDevice, hA]
    | true =>
      by_cases hta : tx.isActive = some false
      · simp [shouldPollDevice, hA, htx, hta]
      · simp [shouldPollDevice, hA, htx, hta, hsid, hsite, hsa]
  · intro hA htx
    simp [shouldPollDevice, hA, htx]
  · intro hA htx hta sid hsid hsite
    simp [shouldPollDevice, hA, htx, hta, hsid, hsite]

/-- Witness for C6: a transmitter stored with `is_active = false` is
skipped. -/
theorem gating_check_witness :
    (GateStore.mk (fun _ => .ok (some ⟨"d1", some false, none⟩)) (fun _ => .ok none)
        ).getTransmitterById (PollDevice.mk "d1" true).id
      = .ok (some ⟨"d1", some false, none⟩) ∧
    shouldPollDevice (PollDevice.mk "d1" true)
      (GateStore.mk (fun _ => .ok (some ⟨"d1", some false, none⟩)) (fun _ => .ok none))
        = false :=
  ⟨rfl,
    (gating_check (PollDevice.mk "d1" true)
      (GateStore.mk (fun _ => .ok (some ⟨"d1", some false, none⟩)) (fun _ => .ok none))
      ⟨"d1", some false, none⟩).1 rfl rfl⟩

/-!
### C9 — failed polls still yield a row, with `offline` status
-/

/-- `parseSnmpData` returns the empty record on failed or data-less
results. -/
theorem parseFields_of_failure (success : Bool) (data : Option SnmpData)
    (h : success = false ∨ data = none) : parseFields success data = {} := by
  cases success with
  | false => cases data <;> rfl
  | true =>
    cases data with
    | none => rfl
    | some d => rcases h with h | h <;> simp at h

/-- No VSWR is derived on failed or data-less results. -/
theorem parseVswr_of_failure (success : Bool) (data : Option SnmpData)
    (h : success = false ∨ data = none) : parseVswr success data = none := by
  simp [parseVswr, parseFields_of_failure success data h]

/-- The OID-mapping loop never assigns the status field. -/
theorem foldl_applyEntry_status (d : SnmpData) (m : Metrics) :
    (d.foldl applyEntry m).status = m.status := by
  induction d generalizing m with
  | nil => rfl
  | cons p rest ih =>
    rw [List.foldl_cons, ih]
    unfold applyEntry
    cases resolveMetricName p.1 with
    | none => rfl
    | some name =>
      cases p.2 with
      | num q => cases name <;> rfl
      | str s => rfl
      | buf b => rfl

/-- The derived status field is always one of the three liveness
values. -/
theorem statusField_mem (d : SnmpData) :
    statusField d = some "active" ∨ statusField d = some "standby" ∨
      statusField d = some "offline" := by
  unfold statusField
  cases h13 : getNumericValueForBase d statusBase13 with
  | some q =>
    by_cases hq : q = 1 <;> simp [hq]
  | none =>
    cases h12 : getNumericValueForBase d statusBase12 with
    | some q =>
      by_cases hq : q = 2 <;> simp [hq]
    | none => simp

/-- **C9.** For every poll result handed to the metric-store path whose
transmitter exists, a row is inserted even when the result has
`success = false` or carries no data; in that failure case the row has
status `offline`, no populated metric fields, and carries the result's
error message — and the status stored by the polling path is always one
of `active`, `standby`, `offline`. -/
theorem failed_poll_row (txExists : Bool) (deviceId : String) (r : DeviceResult) :
    (txExists = true → r.success = false ∨ r.data = none →
      storeTransmitterMetrics txExists deviceId r = some
        { transmitterId := deviceId
        , timestamp := r.timestamp
        , powerOutput := none
        , frequency := none
        , vswr := none
        , temperature := none
        , forwardPower := none
        , reflectedPower := none
        , status := "offline"
        , snmpData := r.data
        , errorMessage := r.error }) ∧
    (∀ row, storeTransmitterMetrics txExists deviceId r = some row →
      row.status = "active" ∨ row.status = "standby" ∨ row.status = "offline") := by
  constructor
  · intro htx hfail
    simp [storeTransmitterMetrics, htx, parseFields_of_failure r.success r.data hfail,
      parseVswr_of_failure r.success r.data hfail]
  · intro row hrow
    cases htx : txExists with
    | false => simp [storeTransmitterMetrics, htx] at hrow
    | true =>
      simp [storeTransmitterMetrics, htx] at hrow
      have hst : row.status = (parseFields r.success r.data).status.getD "offline" := by
        rw [← hrow]
      cases hs : r.success with
      | false =>
        rw [parseFields_of_failure r.success r.data (Or.inl hs)] at hst
        right; right; exact hst
      | true =>
        cases hd : r.data with
        | none =>
          rw [parseFields_of_failure r.success r.data (Or.inr hd)] at hst
          right; right; exact hst
        | some d =>
          rw [hs, hd] at hst
          rw [show parseFields true (some d) = d.foldl applyEntry { status := statusField d }
            from rfl, foldl_applyEntry_status] at hst
          rcases statusField_mem d with h | h | h <;> rw [h] at hst <;> simp [hst]

/-- Witness for C9: a concrete timed-out poll stores the failure row. -/
theorem failed_poll_row_witness :
    storeTransmitterMetrics true "tx-1"
        ⟨"tx-1", 5, false, none, some "Request timed out"⟩ = some
      { transmitterId := "tx-1"
      , timestamp := 5
      , powerOutput := none
      , frequency := none
      , vswr := none
      , temperature := none
      , forwardPower := none
      , reflectedPower := none
      , status := "offline"
      , snmpData := none
      , errorMessage := some "Request timed out" } :=
  (failed_poll_row true "tx-1" ⟨"tx-1", 5, false, none, some "Request timed out"⟩).1
    rfl (Or.inl rfl)

/-!
### C5 — trap attribution

The claim says a trap is attributed iff *exactly one* transmitter
matches the source host, and that with more than one match no
attribution is made. The source uses `allTx.find(...)`, which attributes
to the *first* match even when several transmitters share the host.
-/

/-- **C5 counterexample.** With two transmitters both configured with
`snmp_host = "10.0.0.5"`, a trap from that host is attributed to the
first one, although the match is not unique — so attribution is not
"iff exactly one transmitter matches". -/
theorem trap_attribution_counterexample :
    (handleNotification (fun _ => none)
        (.ok [⟨"t1", some "s1", "10.0.0.5"⟩, ⟨"t2", some "s2", "10.0.0.5"⟩])
        ⟨some "10.0.0.5", none, some 49152, none, some "public", .v2c, []⟩
        162).transmitterId = some "t1" ∧
    ([⟨"t1", some "s1", "10.0.0.5"⟩, ⟨"t2", some "s2", "10.0.0.5"⟩] : List Tx).countP
        (fun tx => tx.snmpHost == "10.0.0.5") = 2 := by
  exact ⟨rfl, rfl⟩

/-- **C5 amended.** A received trap is always stored; it is attributed
to the *first* transmitter in listing order whose `snmp_host` equals the
trap's source host (carrying that transmitter's site id), and left
unattributed when no transmitter matches or when the transmitter-table
lookup throws. -/
theorem trap_attribution_first_match (typeName : ℕ → Option String)
    (txStore : Except Unit (List Tx)) (n : TrapNotification) (p : ℤ) :
    ((handleNotification typeName txStore n p).transmitterId =
      match txStore with
      | .ok txs => (txs.find? (fun tx => tx.snmpHost == sourceHostOf n)).map Tx.id
      | .error _ => none) ∧
    ((handleNotification typeName txStore n p).siteId =
      match txStore with
      | .ok txs => (txs.find? (fun tx => tx.snmpHost == sourceHostOf n)).bind Tx.siteId
      | .error _ => none) ∧
    (∀ txs, txStore = .ok txs → (∀ tx ∈ txs, tx.snmpHost ≠ sourceHostOf n) →
      (handleNotification typeName txStore n p).transmitterId = none ∧
      (handleNotification typeName txStore n p).siteId = none) ∧
    ((handleNotification typeName txStore n p).sourceHost = sourceHostOf n) := by
  refine ⟨?_, ?_, ?_, ?_⟩
  · cases txStore <;> rfl
  · cases txStore <;> rfl
  · intro txs hstore hnone
    have hfind : txs.find? (fun tx => tx.snmpHost == sourceHostOf n) = none := by
      rw [List.find?_eq_none]
      intro tx htx
      simpa using hnone tx htx
    subst hstore
    constructor <;> simp [handleNotification, hfind]
  · cases txStore <;> rfl

/-- Witness for C5 (amended): no transmitter matches host `"b"`, so the
stored trap is unattributed. -/
theorem trap_attribution_first_match_witness :
    (handleNotification (fun _ => none) (.ok [⟨"t1", some "s1", "a"⟩])
        ⟨some "b", none, none, none, none, .v1, []⟩ 10162).transmitterId = none ∧
    (handleNotification (fun _ => none) (.ok [⟨"t1", some "s1", "a"⟩])
        ⟨some "b", none, none, none, none, .v1, []⟩ 10162).siteId = none :=
  (trap_attribution_first_match (fun _ => none) (.ok [⟨"t1", some "s1", "a"⟩])
      ⟨some "b", none, none, none, none, .v1, []⟩ 10162).2.2.1
    [⟨"t1", some "s1", "a"⟩] rfl (by decide)

/-!
### C8 — contact-info normalization

The claim states that *every* string that is not valid JSON synthesizes
the legacy record. The source guards the whole normalization with the
truthiness check `if (contact)`, so the empty string — which is not
valid JSON — is routed to `null` instead of the synthesized record.
-/

/-- **C8 counterexample.** The stored string `""` is not valid JSON
(`JSON.parse("")` throws, modelled by the parse oracle returning
`none`), yet normalization yields `null`, not
`{technician:"", phone:"", email:""}`. -/
theorem contact_normalization_counterexample :
    normalizeContact (fun _ => none) (some (.jstr "")) = none ∧
    normalizeContact (fun _ => none) (some (.jstr "")) ≠ some (synthContact "") := by
  refine ⟨rfl, ?_⟩
  intro h
  rw [show normalizeContact (fun _ => none) (some (.jstr "")) = none from rfl] at h
  exact Option.noConfusion h

/-- **C8 amended.** For every stored `contact_info` value: a *non-empty*
string containing a valid JSON value that is truthy and of object type
normalizes to the parsed value; a non-empty string that fails to parse,
or parses to anything else, synthesizes
`{technician:"", phone:"", email:<original string>}`; a truthy
non-string value passes through unchanged; and falsy values (the empty
string included) normalize to `null`. -/
theorem contact_normalization (parse : String → Option JsonVal) (s : String)
    (v : JsonVal) :
    (s ≠ "" → parse (trimS s) = some v → (jsTruthy v && jsTypeofObject v) = true →
      normalizeContact parse (some (.jstr s)) = some v) ∧
    (s ≠ "" → parse (trimS s) = none →
      normalizeContact parse (some (.jstr s)) = some (synthContact s)) ∧
    (s ≠ "" → parse (trimS s) = some v → (jsTruthy v && jsTypeofObject v) = false →
      normalizeContact parse (some (.jstr s)) = some (synthContact s)) ∧
    (∀ c, jsTruthy c = true → (∀ s2, c ≠ .jstr s2) →
      normalizeContact parse (some c) = some c) ∧
    (normalizeContact parse (some (.jstr "")) = none) ∧
    (normalizeContact parse none = none) := by
  refine ⟨?_, ?_, ?_, ?_, ?_, rfl⟩
  · intro hs hp hv
    have ht : jsTruthy (.jstr s) = true := by simp [jsTruthy, hs]
    simp [normalizeContact, ht, hp, hv]
  · intro hs hp
    have ht : jsTruthy (.jstr s) = true := by simp [jsTruthy, hs]
    simp [normalizeContact, ht, hp]
  · intro hs hp hv
    have ht : jsTruthy (.jstr s) = true := by simp [jsTruthy, hs]
    simp [normalizeContact, ht, hp, hv]
  · intro c hc hns
    cases c with
    | jstr s2 => exact absurd rfl (hns s2)
    | jnull => simp [jsTruthy] at hc
    | jbool b => simp [normalizeContact, hc]
    | jnum q => simp [normalizeContact, hc]
    | jarr elems => simp [normalizeContact, hc]
    | jobj fields => simp [normalizeContact, hc]
  · rfl

/-- Witness for C8: the legacy string `"alice@example.com"` (not valid
JSON) round-trips as the synthesized legacy record. -/
theorem contact_normalization_witness :
    normalizeContact (fun _ => none) (some (.jstr "alice@example.com")) =
      some (synthContact "alice@example.com") :=
  (contact_normalization (fun _ => none) "alice@example.com" .jnull).2.1
    (by decide) rfl

/-!
### C3 — what the expansion's `.0` step actually emits

For an OID that does not end in `.0`, the loop adds
`` `${base}.0` `` where `base = stripInstance(oid)` — not
`` `${oid}.0` ``. Since every component of a dotted-decimal OID is
numeric, `stripInstance` drops the last component, so the emitted form
replaces the final component by `0` instead of appending `.0`.
-/

/-- **C3 counterexample.** The configured OID
`1.3.6.1.4.1.31946.4.2.6.10.1` survives normalization and does not end
in `.0`, yet its claimed `.0` form `1.3.6.1.4.1.31946.4.2.6.10.1.0` is
*not* in the expanded set (the set contains
`1.3.6.1.4.1.31946.4.2.6.10.0` instead). -/
theorem oid_expansion_counterexample :
    S "1.3.6.1.4.1.31946.4.2.6.10.1"
        ∈ normalizeOids [S "1.3.6.1.4.1.31946.4.2.6.10.1"] ∧
    dot0.isSuffixOf (S "1.3.6.1.4.1.31946.4.2.6.10.1") = false ∧
    S "1.3.6.1.4.1.31946.4.2.6.10.1.0"
        ∉ expandOids [S "1.3.6.1.4.1.31946.4.2.6.10.1"] ∧
    S "1.3.6.1.4.1.31946.4.2.6.10.0"
        ∈ expandOids [S "1.3.6.1.4.1.31946.4.2.6.10.1"] := by
  refine ⟨by decide, by decide, by decide, by decide⟩

/-- **C3 amended.** For every configured OID list, the poll-time
expansion emits, for each normalized OID, the OID itself, and when the
OID does not end in `.0` it also emits `stripInstance(oid) + ".0"` — the
OID with a trailing numeric component replaced by `0` (for an OID with a
non-numeric last component this is `oid + ".0"`). -/
theorem oid_expansion_emits (x : List Str) (oid : Str)
    (h : oid ∈ normalizeOids x) :
    oid ∈ expandOids x ∧
    (dot0.isSuffixOf oid = false → stripInstance oid ++ dot0 ∈ expandOids x) := by
  constructor
  · unfold expandOids
    refine List.mem_append_left _ ?_
    rw [List.mem_flatMap]
    exact ⟨oid, h, by unfold expandOne; simp⟩
  · intro hsuf
    unfold expandOids
    refine List.mem_append_left _ ?_
    rw [List.mem_flatMap]
    refine ⟨oid, h, ?_⟩
    unfold expandOne
    rw [hsuf]
    simp

/-- Witness for C3 (amended), at the configured list
`["1.3.6.1.4.1.31946.4.2.6.10.1"]`. -/
theorem oid_expansion_emits_witness :
    S "1.3.6.1.4.1.31946.4.2.6.10.1"
        ∈ normalizeOids [S "1.3.6.1.4.1.31946.4.2.6.10.1"] ∧
    (S "1.3.6.1.4.1.31946.4.2.6.10.1"
        ∈ expandOids [S "1.3.6.1.4.1.31946.4.2.6.10.1"] ∧
      (dot0.isSuffixOf (S "1.3.6.1.4.1.31946.4.2.6.10.1") = false →
        stripInstance (S "1.3.6.1.4.1.31946.4.2.6.10.1") ++ dot0
          ∈ expandOids [S "1.3.6.1.4.1.31946.4.2.6.10.1"])) :=
  ⟨by decide, oid_expansion_emits [S "1.3.6.1.4.1.31946.4.2.6.10.1"]
    (S "1.3.6.1.4.1.31946.4.2.6.10.1") (by decide)⟩

/-!
### C2 — the VSWR finite-guard is absent

`parseSnmpData` computes `metrics.vswr = (1 + Γ) / (1 - Γ)` with no
finiteness check. For `forward_power = reflected_power = 100` the
reflection coefficient is exactly `1` and the JavaScript division
`2 / 0` yields `+Infinity`, which *is* assigned to `metrics.vswr` and
inserted into the row.
-/

/-- **C2.** At the successful poll
`{…10.1.0 ↦ 100, …10.2.0 ↦ 100}` (forward power equal to reflected
power), the parser *does* emit a VSWR, and its value is `+Infinity` —
contradicting "emit only when defined and finite" and scenario S6. -/
theorem vswr_infinity_emitted :
    parseVswr true (some
        [ (S "1.3.6.1.4.1.31946.4.2.6.10.1.0", JSVal.num 100)
        , (S "1.3.6.1.4.1.31946.4.2.6.10.2.0", JSVal.num 100) ])
      = some JSFloat.posInf := by
  have hm : parseFields true (some
      [ (S "1.3.6.1.4.1.31946.4.2.6.10.1.0", JSVal.num 100)
      , (S "1.3.6.1.4.1.31946.4.2.6.10.2.0", JSVal.num 100) ]) =
      { powerOutput := none
      , frequency := none
      , temperature := none
      , forwardPower := some 100
      , reflectedPower := some 100
      , status := some "offline" } := by decide
  have hdiv : ((100 : ℚ) : ℝ) / ((100 : ℚ) : ℝ) = 1 := by norm_num
  simp [parseVswr, hm, vswrCalc, jsSqrt, hdiv, Real.sqrt_one]
  rw [if_neg (by norm_num : ¬ (1 : ℝ) < 0)]
  show (if (1 : ℝ) = 1 then JSFloat.posInf else JSFloat.fin ((1 + 1) / (1 - 1)))
    = JSFloat.posInf
  rw [if_pos rfl]

/-!
### C10 — trap filters run after the newest-`limit` window
-/

/-- **C10.** The latest-traps query applies its filters only after
taking the newest `limit` rows (missing or non-positive limit → 100):
every returned row matches the filters and at most `limit` rows are
returned, but with two matching traps older than a newer non-matching
one and `limit = 2`, only one matching trap is returned even though a
second matching trap exists beyond the newest-2 window. -/
theorem latest_traps_filter_after_limit :
    (∀ (table : List TrapRecord) (q : TrapQuery) (r : TrapRecord),
      r ∈ getLatestTraps table q → trapMatches q r = true) ∧
    (∀ (table : List TrapRecord) (q : TrapQuery),
      (getLatestTraps table q).length ≤ effLimit q.limit) ∧
    (effLimit (some 2) = 2 ∧
      getLatestTraps
          [ ⟨none, none, "10.0.0.1", 10⟩
          , ⟨none, none, "10.0.0.2", 5⟩
          , ⟨none, none, "10.0.0.2", 4⟩ ]
          ⟨some 2, none, none, some "10.0.0.2"⟩
        = [⟨none, none, "10.0.0.2", 5⟩] ∧
      ([ ⟨none, none, "10.0.0.1", 10⟩
       , ⟨none, none, "10.0.0.2", 5⟩
       , (⟨none, none, "10.0.0.2", 4⟩ : TrapRecord) ].countP
          (trapMatches ⟨some 2, none, none, some "10.0.0.2"⟩)) = 2) := by
  refine ⟨?_, ?_, by decide, by decide, by decide⟩
  · intro table q r hr
    exact List.of_mem_filter hr
  · intro table q
    exact le_trans (List.length_filter_le _ _) (List.length_take_le _ _)

/-- Witness for C10 at the concrete three-row table. -/
theorem latest_traps_filter_after_limit_witness :
    (⟨none, none, "10.0.0.2", 5⟩ : TrapRecord)
        ∈ getLatestTraps
            [ ⟨none, none, "10.0.0.1", 10⟩
            , ⟨none, none, "10.0.0.2", 5⟩
            , ⟨none, none, "10.0.0.2", 4⟩ ]
            ⟨some 2, none, none, some "10.0.0.2"⟩ ∧
    trapMatches ⟨some 2, none, none, some "10.0.0.2"⟩ ⟨none, none, "10.0.0.2", 5⟩
      = true :=
  ⟨by decide,
    latest_traps_filter_after_limit.1
      [ ⟨none, none, "10.0.0.1", 10⟩
      , ⟨none, none, "10.0.0.2", 5⟩
      , ⟨none, none, "10.0.0.2", 4⟩ ]
      ⟨some 2, none, none, some "10.0.0.2"⟩
      ⟨none, none, "10.0.0.2", 5⟩ (by decide)⟩

/-!
### C7 — the bounded result ring
-/

set_option maxRecDepth 4000 in
/-- One recording step keeps exactly the most recent `maxResults`
entries of the extended history. -/
theorem recordResult_drop (A : List DeviceResult) (r : DeviceResult) :
    recordResult (A.drop (A.length - maxResults)) r
      = (A ++ [r]).drop ((A ++ [r]).length - maxResults) := by
  unfold recordResult maxResults
  simp only [List.length_append, List.length_drop, List.length_cons, List.length_nil]
  by_cases h : 1000 ≤ A.length
  · rw [if_pos (by omega)]
    rw [← List.drop_append_of_le_length (Nat.sub_le _ _)]
    rw [List.drop_drop]
    exact congrArg (fun k => List.drop k (A ++ [r])) (by omega)
  · rw [if_neg (by omega)]
    have h0 : A.length - 1000 = 0 := by omega
    have h1 : A.length + (0 + 1) - 1000 = 0 := by omega
    rw [h0, h1, List.drop_zero, List.drop_zero]

/-- Folding the recorder over a result sequence keeps exactly the most
recent `maxResults` entries. -/
theorem foldl_recordResult_drop (rs : List DeviceResult) (A : List DeviceResult) :
    rs.foldl recordResult (A.drop (A.length - maxResults))
      = (A ++ rs).drop ((A ++ rs).length - maxResults) := by
  induction rs generalizing A with
  | nil => simp
  | cons r rest ih =>
    rw [List.foldl_cons, recordResult_drop A r, ih (A ++ [r]), List.append_assoc,
      List.singleton_append]

/-- Membership in a stable insertion. -/
theorem mem_insertSorted (le : α → α → Bool) (x a : α) (l : List α) :
    a ∈ insertSorted le x l ↔ a = x ∨ a ∈ l := by
  induction l with
  | nil => simp [insertSorted]
  | cons y ys ih =>
    unfold insertSorted
    by_cases h : le y x = true
    · simp [h, ih]
      tauto
    · simp [h, ih]

/-- Stable insertion preserves sortedness. -/
theorem pairwise_insertSorted (le : α → α → Bool)
    (htrans : ∀ a b c, le a b = true → le b c = true → le a c = true)
    (htotal : ∀ a b, le a b = true ∨ le b a = true)
    (x : α) (l : List α) (hl : l.Pairwise (fun a b => le a b = true)) :
    (insertSorted le x l).Pairwise (fun a b => le a b = true) := by
  induction l with
  | nil => simp [insertSorted]
  | cons y ys ih =>
    rw [List.pairwise_cons] at hl
    obtain ⟨hy, hys⟩ := hl
    unfold insertSorted
    by_cases h : le y x = true
    · rw [if_pos h, List.pairwise_cons]
      refine ⟨?_, ih hys⟩
      intro a ha
      rcases (mem_insertSorted le x a ys).mp ha with rfl | ha
      · exact h
      · exact hy a ha
    · rw [if_neg h, List.pairwise_cons]
      have hxy : le x y = true := (htotal x y).resolve_right h
      refine ⟨?_, List.pairwise_cons.mpr ⟨hy, hys⟩⟩
      intro a ha
      rcases List.mem_cons.mp ha with rfl | ha
      · exact hxy
      · exact htrans x y a hxy (hy a ha)

/-- The modelled stable sort is sorted with respect to its comparator. -/
theorem pairwise_sortBy (le : α → α → Bool)
    (htrans : ∀ a b c, le a b = true → le b c = true → le a c = true)
    (htotal : ∀ a b, le a b = true ∨ le b a = true) (l : List α) :
    (sortBy le l).Pairwise (fun a b => le a b = true) := by
  suffices h : ∀ acc : List α, acc.Pairwise (fun a b => le a b = true) →
      (l.foldl (fun acc x => insertSorted le x acc) acc).Pairwise
        (fun a b => le a b = true) from h [] (by simp)
  induction l with
  | nil => intro acc hacc; simpa using hacc
  | cons x xs ih =>
    intro acc hacc
    rw [List.foldl_cons]
    exact ih _ (pairwise_insertSorted le htrans htotal x acc hacc)

/-- **C7.** After more than 1000 recorded poll results the in-memory
ring holds exactly 1000 entries, namely the 1000 most recently recorded
ones, and every ring query returns its results newest-first. -/
theorem bounded_result_ring (rs : List DeviceResult) (h : rs.length > 1000) :
    (rs.foldl recordResult []).length = 1000 ∧
    rs.foldl recordResult [] = rs.drop (rs.length - 1000) ∧
    ∀ (dev : Option String) (lim : ℕ),
      (getResults (rs.foldl recordResult []) dev lim).Pairwise
        (fun a b => b.timestamp ≤ a.timestamp) := by
  have hfold : rs.foldl recordResult [] = rs.drop (rs.length - 1000) := by
    have h2 := foldl_recordResult_drop rs []
    simpa using h2
  refine ⟨?_, hfold, ?_⟩
  · rw [hfold, List.length_drop]
    omega
  · intro dev lim
    have htrans : ∀ a b c : DeviceResult, newerFirst a b = true → newerFirst b c = true →
        newerFirst a c = true := by
      intro a b c hab hbc
      simp only [newerFirst, decide_eq_true_eq] at *
      omega
    have htotal : ∀ a b : DeviceResult, newerFirst a b = true ∨ newerFirst b a = true := by
      intro a b
      simp only [newerFirst, decide_eq_true_eq]
      omega
    unfold getResults
    refine List.Pairwise.sublist (List.take_sublist _ _) ?_
    refine List.Pairwise.imp ?_ (pairwise_sortBy newerFirst htrans htotal _)
    intro a b hab
    simpa [newerFirst] using hab

/-- Witness for C7 with 1001 recorded results. -/
theorem bounded_result_ring_witness :
    ((List.range 1001).map
        (fun i => (⟨"d", i, true, none, none⟩ : DeviceResult))).length > 1000 ∧
    (((List.range 1001).map
        (fun i => (⟨"d", i, true, none, none⟩ : DeviceResult))).foldl
          recordResult []).length = 1000 :=
  ⟨by simp, (bounded_result_ring _ (by simp)).1⟩

/-!
### C4 — OID expansion idempotence

The Elenos force-add emits the bare core bases (e.g.
`…10.1`); re-expanding a bare base strips its last component and adds
`…10.0`, which the first expansion did not contain — so
`expand(expand(x))` is strictly larger than `expand(x)` for Elenos
configurations. For configurations with no Elenos-prefixed OID the
expansion *is* idempotent; the development below proves that.
-/

/-- `splitDot` never returns the empty list. -/
theorem splitDot_ne_nil (s : Str) : splitDot s ≠ [] := by
  cases s with
  | nil => simp [splitDot]
  | cons c rest =>
    unfold splitDot
    cases h : splitDot rest with
    | nil => simp
    | cons seg segs => by_cases hc : c = '.' <;> simp [hc]

/-- Joining the split of a string recovers the string. -/
theorem joinDot_splitDot (s : Str) : joinDot (splitDot s) = s := by
  induction s with
  | nil => rfl
  | cons c rest ih =>
    unfold splitDot
    cases h : splitDot rest with
    | nil => exact absurd h (splitDot_ne_nil rest)
    | cons seg segs =>
      rw [h] at ih
      by_cases hc : c = '.'
      · subst hc
        simp only [if_pos rfl]
        cases segs with
        | nil => simp [joinDot] at ih ⊢; exact ih
        | cons s2 ss => simp [joinDot] at ih ⊢; exact ih
      · simp only [if_neg hc]
        cases segs with
        | nil => simp [joinDot] at ih ⊢; exact ih
        | cons s2 ss => simp [joinDot] at ih ⊢; exact ih

/-- Splitting after appending `".0"` appends one `"0"` segment. -/
theorem splitDot_append_dot0 (a : Str) :
    splitDot (a ++ dot0) = splitDot a ++ [['0']] := by
  induction a with
  | nil => rfl
  | cons c rest ih =>
    show splitDot (c :: (rest ++ dot0)) = splitDot (c :: rest) ++ [['0']]
    unfold splitDot
    rw [ih]
    cases h : splitDot rest with
    | nil => exact absurd h (splitDot_ne_nil rest)
    | cons seg segs => by_cases hc : c = '.' <;> simp [hc]

/-- Stripping the instance index of `a + ".0"` recovers `a`. -/
theorem stripInstance_append_dot0 (a : Str) : stripInstance (a ++ dot0) = a := by
  unfold stripInstance
  simp only [splitDot_append_dot0, List.getLast?_concat, List.dropLast_concat]
  rw [if_pos (by decide : isDigits ['0'] = true)]
  exact joinDot_splitDot a

/-- `a + ".0"` ends in `".0"`. -/
theorem dot0_isSuffixOf_append (a : Str) : dot0.isSuffixOf (a ++ dot0) = true := by
  rw [List.isSuffixOf_iff_suffix]
  exact List.suffix_append a dot0

/-- Joining with a final extra segment appends `'.'` and the segment. -/
theorem joinDot_concat (l : List Str) (x : Str) (h : l ≠ []) :
    joinDot (l ++ [x]) = joinDot l ++ '.' :: x := by
  induction l with
  | nil => exact absurd rfl h
  | cons y l2 ih =>
    cases l2 with
    | nil => rfl
    | cons z l3 =>
      show joinDot (y :: (z :: l3 ++ [x])) = joinDot (y :: z :: l3) ++ '.' :: x
      rw [show joinDot (y :: (z :: l3 ++ [x]))
        = y ++ '.' :: joinDot (z :: l3 ++ [x]) from rfl]
      rw [ih (by simp)]
      simp [joinDot]

/-- The instance-stripped form of a string is one of its prefixes. -/
theorem stripInstance_prefix (o : Str) : stripInstance o <+: o := by
  unfold stripInstance
  cases hl : (splitDot o).getLast? with
  | none => simp only [hl]; exact List.prefix_refl o
  | some last =>
    simp only [hl]
    by_cases hd : isDigits last = true
    · rw [if_pos hd]
      have hsplit : splitDot o = (splitDot o).dropLast ++ [last] := by
        conv_lhs => rw [← List.dropLast_append_getLast (splitDot_ne_nil o)]
        rw [List.getLast?_eq_getLast _ (splitDot_ne_nil o)] at hl
        rw [Option.some_inj] at hl
        rw [hl]
      cases hinit : (splitDot o).dropLast with
      | nil =>
        show joinDot [] <+: o
        exact List.nil_prefix
      | cons w ws2 =>
        have h2 : o = joinDot ((splitDot o).dropLast) ++ '.' :: last := by
          conv_lhs => rw [← joinDot_splitDot o]
          conv_lhs => rw [hsplit]
          rw [joinDot_concat _ _ (by rw [hinit]; simp)]
        rw [hinit] at h2
        conv_rhs => rw [h2]
        exact ⟨'.' :: last, rfl⟩
    · rw [if_neg hd]

/-- `dropWhile` is idempotent. -/
theorem dropWhile_dropWhile (p : α → Bool) (l : List α) :
    (l.dropWhile p).dropWhile p = l.dropWhile p := by
  induction l with
  | nil => rfl
  | cons c rest ih =>
    by_cases h : p c = true
    · rw [List.dropWhile_cons, if_pos h, ih]
    · rw [List.dropWhile_cons, if_neg (by simp [h]), List.dropWhile_cons,
        if_neg (by simp [h])]

/-- A list fixed by `dropWhile` has a head not satisfying the predicate. -/
theorem head_not_of_dropWhile_eq_self (p : α → Bool) (c : α) (l : List α)
    (h : (c :: l).dropWhile p = c :: l) : p c = false := by
  by_contra hc
  rw [Bool.not_eq_false] at hc
  rw [List.dropWhile_cons, if_pos hc] at h
  have h2 : (l.dropWhile p).length ≤ l.length := (List.dropWhile_suffix p).length_le
  rw [h, List.length_cons] at h2
  omega

/-- A string is fixed by `trim` exactly when it has no leading and no
trailing whitespace. -/
theorem trimStr_eq_self_iff (s : Str) :
    trimStr s = s ↔ s.dropWhile Char.isWhitespace = s ∧
      s.reverse.dropWhile Char.isWhitespace = s.reverse := by
  constructor
  · intro h
    have hlen1 : (trimStr s).length = s.length := by rw [h]
    have hle1 : (s.dropWhile Char.isWhitespace).length ≤ s.length :=
      (List.dropWhile_suffix _).length_le
    have hlen2 : (trimStr s).length
        ≤ (s.dropWhile Char.isWhitespace).length := by
      unfold trimStr
      rw [List.length_reverse]
      have h3 : ((s.dropWhile Char.isWhitespace).reverse.dropWhile
          Char.isWhitespace).length ≤ (s.dropWhile Char.isWhitespace).reverse.length :=
        (List.dropWhile_suffix _).length_le
      simpa using h3
    have h1 : s.dropWhile Char.isWhitespace = s := by
      refine (List.dropWhile_suffix _).eq_of_length ?_
      omega
    unfold trimStr at h
    rw [h1] at h
    refine ⟨h1, ?_⟩
    have h4 := congrArg List.reverse h
    simpa using h4
  · rintro ⟨h1, h2⟩
    unfold trimStr
    rw [h1, h2, List.reverse_reverse]

/-- Prefixes inherit the absence of leading dropped elements. -/
theorem noLead_of_prefix (p : α → Bool) (t u : List α) (hu : u.dropWhile p = u)
    (htu : t <+: u) : t.dropWhile p = t := by
  cases t with
  | nil => rfl
  | cons c t2 =>
    obtain ⟨rest, hrest⟩ := htu
    have hc : p c = false := by
      apply head_not_of_dropWhile_eq_self p c (t2 ++ rest)
      rw [← List.cons_append, hrest]
      exact hu
    rw [List.dropWhile_cons, if_neg (by simp [hc])]

/-- `trim` is idempotent. -/
theorem trimStr_idem (s : Str) : trimStr (trimStr s) = trimStr s := by
  rw [trimStr_eq_self_iff]
  constructor
  · refine noLead_of_prefix Char.isWhitespace (trimStr s)
      (s.dropWhile Char.isWhitespace) (dropWhile_dropWhile _ _) ?_
    rw [← List.reverse_suffix]
    show (trimStr s).reverse <:+ (s.dropWhile Char.isWhitespace).reverse
    unfold trimStr
    rw [List.reverse_reverse]
    exact List.dropWhile_suffix _
  · unfold trimStr
    rw [List.reverse_reverse]
    exact dropWhile_dropWhile _ _

/-- The `.0` forms produced by the expansion are fixed by `trim`. -/
theorem trimStr_strip_append_dot0 (o : Str) (ho : trimStr o = o) :
    trimStr (stripInstance o ++ dot0) = stripInstance o ++ dot0 := by
  rw [trimStr_eq_self_iff]
  constructor
  · cases ha : stripInstance o with
    | nil => decide
    | cons c a2 =>
      have hpre : stripInstance o <+: o := stripInstance_prefix o
      rw [ha] at hpre
      have hu : o.dropWhile Char.isWhitespace = o := ((trimStr_eq_self_iff o).mp ho).1
      have hc : Char.isWhitespace c = false := by
        obtain ⟨rest, hrest⟩ := hpre
        apply head_not_of_dropWhile_eq_self Char.isWhitespace c (a2 ++ rest)
        rw [← List.cons_append, hrest]
        exact hu
      rw [List.cons_append, List.dropWhile_cons, if_neg (by simp [hc])]
  · rw [List.reverse_append]
    show ('0' :: '.' :: (stripInstance o).reverse).dropWhile Char.isWhitespace
      = '0' :: '.' :: (stripInstance o).reverse
    rw [List.dropWhile_cons, if_neg (by decide)]

/-- An OID configuration with no Elenos-prefixed stripped base. -/
def noElenos (x : List Str) : Prop :=
  ∀ o ∈ normalizeOids x, elenosPre.isPrefixOf (stripInstance o) = false

/-- Normalized OIDs are trim-fixed and nonempty. -/
theorem normalizeOids_trimfix (x : List Str) (o : Str) (ho : o ∈ normalizeOids x) :
    trimStr o = o ∧ o ≠ [] := by
  unfold normalizeOids at ho
  rw [List.mem_filter] at ho
  obtain ⟨hmem, hne⟩ := ho
  rw [List.mem_map] at hmem
  obtain ⟨y, _, hy⟩ := hmem
  constructor
  · rw [← hy]
    exact trimStr_idem y
  · intro h0
    rw [h0] at hne
    simp at hne

/-- Each of the five regex-matched bases carries the Elenos prefix. -/
theorem elenosIdxBases_prefixed (b : Str) (hb : b ∈ elenosIdxBases) :
    elenosPre.isPrefixOf b = true := by
  fin_cases hb <;> decide

/-- Without Elenos OIDs the force-add check is off. -/
theorem hasAnyElenos_eq_false (x : List Str) (h : noElenos x) :
    hasAnyElenos (normalizeOids x) = false := by
  unfold hasAnyElenos
  rw [List.any_eq_false]
  intro o ho
  rw [h o ho]
  simp

/-- Without Elenos OIDs the per-OID regex check is off. -/
theorem contains_base_eq_false (x : List Str) (h : noElenos x) (o : Str)
    (ho : o ∈ normalizeOids x) :
    elenosIdxBases.contains (stripInstance o) = false := by
  by_contra hc
  rw [Bool.not_eq_false, List.elem_iff] at hc
  have h2 := elenosIdxBases_prefixed _ hc
  rw [h o ho] at h2
  exact Bool.noConfusion h2

/-- Closed form of expansion membership for non-Elenos configurations. -/
theorem mem_expandOids_iff (x : List Str) (h : noElenos x) (z : Str) :
    z ∈ expandOids x ↔ ∃ o ∈ normalizeOids x,
      z = o ∨ (dot0.isSuffixOf o = false ∧ z = stripInstance o ++ dot0) := by
  unfold expandOids
  show (z ∈ (normalizeOids x).flatMap expandOne
      ++ if hasAnyElenos (normalizeOids x) = true then coreBases.flatMap coreForms
        else []) ↔ _
  rw [hasAnyElenos_eq_false x h]
  simp only [if_neg Bool.false_ne_true, List.append_nil, List.mem_flatMap]
  constructor
  · rintro ⟨o, ho, hz⟩
    refine ⟨o, ho, ?_⟩
    simp only [expandOne] at hz
    rw [contains_base_eq_false x h o ho] at hz
    simp only [if_neg Bool.false_ne_true, List.append_nil] at hz
    by_cases hsuf : dot0.isSuffixOf o = true
    · rw [hsuf] at hz
      simp at hz
      exact Or.inl hz
    · rw [Bool.not_eq_true] at hsuf
      rw [hsuf] at hz
      simp at hz
      rcases hz with hz | hz
      · exact Or.inl hz
      · exact Or.inr ⟨hsuf, hz⟩
  · rintro ⟨o, ho, hz⟩
    refine ⟨o, ho, ?_⟩
    simp only [expandOne]
    rw [contains_base_eq_false x h o ho]
    simp only [if_neg Bool.false_ne_true, List.append_nil]
    rcases hz with rfl | ⟨hsuf, rfl⟩
    · simp
    · rw [hsuf]
      simp

/-- Every element of a non-Elenos expansion is trim-fixed and nonempty. -/
theorem expandOids_trimfix (x : List Str) (h : noElenos x) (z : Str)
    (hz : z ∈ expandOids x) : trimStr z = z ∧ z ≠ [] := by
  rw [mem_expandOids_iff x h] at hz
  obtain ⟨o, ho, hcase⟩ := hz
  obtain ⟨hto, hne⟩ := normalizeOids_trimfix x o ho
  rcases hcase with rfl | ⟨_, rfl⟩
  · exact ⟨hto, hne⟩
  · refine ⟨trimStr_strip_append_dot0 o hto, ?_⟩
    simp [dot0]

/-- Re-normalizing a non-Elenos expansion is the identity. -/
theorem normalizeOids_expandOids (x : List Str) (h : noElenos x) :
    normalizeOids (expandOids x) = expandOids x := by
  unfold normalizeOids
  have hmap : (expandOids x).map trimStr = expandOids x := by
    have h2 : ∀ z ∈ expandOids x, trimStr z = id z :=
      fun z hz => (expandOids_trimfix x h z hz).1
    rw [List.map_congr_left h2, List.map_id]
  rw [hmap]
  rw [List.filter_eq_self.mpr]
  intro z hz
  have h3 := (expandOids_trimfix x h z hz).2
  simp [h3]

/-- Non-Elenos configurations stay non-Elenos after expansion. -/
theorem noElenos_expandOids (x : List Str) (h : noElenos x) :
    noElenos (expandOids x) := by
  intro e he
  rw [normalizeOids_expandOids x h] at he
  rw [mem_expandOids_iff x h] at he
  obtain ⟨o, ho, hcase⟩ := he
  rcases hcase with rfl | ⟨_, rfl⟩
  · exact h e ho
  · rw [stripInstance_append_dot0]
    exact h o ho

/-- **C4 counterexample.** For the configured list
`["1.3.6.1.4.1.31946.4.2.6.10.13.0"]` the double expansion contains
`1.3.6.1.4.1.31946.4.2.6.10.0` (obtained by re-expanding the force-added
bare base `…10.1`), which the single expansion does not — so
`expand(expand(x)) ≠ expand(x)` as sets. -/
theorem oid_expansion_idem_counterexample :
    S "1.3.6.1.4.1.31946.4.2.6.10.0"
        ∈ expandOids (expandOids [S "1.3.6.1.4.1.31946.4.2.6.10.13.0"]) ∧
    S "1.3.6.1.4.1.31946.4.2.6.10.0"
        ∉ expandOids [S "1.3.6.1.4.1.31946.4.2.6.10.13.0"] :=
  ⟨by decide, by decide⟩

/-- **C4 amended.** The poll-time OID expansion is idempotent as a set
transformation for every configured OID set in which no normalized OID
has an Elenos-prefixed (`1.3.6.1.4.1.31946.4.2.6.10.`) instance-stripped
base; for Elenos configurations the second expansion can strictly grow
the set (see the counterexample). -/
theorem oid_expansion_idem (x : List Str) (h : noElenos x) (z : Str) :
    z ∈ expandOids (expandOids x) ↔ z ∈ expandOids x := by
  rw [mem_expandOids_iff (expandOids x) (noElenos_expandOids x h)]
  rw [normalizeOids_expandOids x h]
  constructor
  · rintro ⟨e, he, hcase⟩
    rcases hcase with rfl | ⟨hsuf, rfl⟩
    · exact he
    · rw [mem_expandOids_iff x h] at he
      obtain ⟨o, ho, hc2⟩ := he
      rcases hc2 with rfl | ⟨hsuf2, rfl⟩
      · rw [mem_expandOids_iff x h]
        exact ⟨e, ho, Or.inr ⟨hsuf, rfl⟩⟩
      · rw [dot0_isSuffixOf_append] at hsuf
        exact Bool.noConfusion hsuf
  · intro hz
    exact ⟨z, hz, Or.inl rfl⟩

/-- Witness for C4 (amended) at the non-Elenos configuration
`["1.3.6.1.2.1.1.3.0"]`. -/
theorem oid_expansion_idem_witness :
    noElenos [S "1.3.6.1.2.1.1.3.0"] ∧
    (S "1.3.6.1.2.1.1.3.0"
        ∈ expandOids (expandOids [S "1.3.6.1.2.1.1.3.0"]) ↔
      S "1.3.6.1.2.1.1.3.0" ∈ expandOids [S "1.3.6.1.2.1.1.3.0"]) :=
  ⟨by unfold noElenos; decide,
    oid_expansion_idem [S "1.3.6.1.2.1.1.3.0"] (by unfold noElenos; decide)
      (S "1.3.6.1.2.1.1.3.0")⟩

end Fmtxm
